import Mathlib

/-!
Shallow embedding of the two ENB techs of `enb-bemxjst-i18n`:
`src/techs/bemhtml-i18n.js` (tech name `bemhtml-i18n`) and the unnamed
source file `src/unnamed/part_000` (tech name `bemtree-i18n`).

Both techs are orchestration glue around external collaborators
(the ENB build flow, the bem-xjst template compiler, the keysets
reader/parser and the i18n compiler of `enb-bem-i18n`).  The embedding
keeps those collaborators abstract: they are fields of a `BuildEnv`
record, and every builder run returns, besides its result, a `Trace`
recording which external calls were made and with which arguments.
Promise composition (`vow.all(...).spread(...)`) is determinized into
explicit evaluation of both branches followed by a join that propagates
the first branch's error first.
-/

/-- Errors surfaced by a build task (section 7 of the spec's taxonomy plus
a constructor for arbitrary collaborator failures). -/
inductive BuildError where
  | fileRead (path : String)
  | keysetRead (path : String)
  | keysetParse (msg : String)
  | compilation (msg : String)
  | missingConfiguration (opt : String)
  | other (msg : String)
  deriving Repr, DecidableEq

/-- One entry of the source sequence handed to the template compiler.
Entries produced by reading a file carry their path; the synthetic
initialization entry appended by the builder (lines 77-84 of both tech
files) is built with a `contents` field only, so its path is `none`. -/
structure SourceEntry where
  path : Option String
  contents : String
  deriving Repr, DecidableEq

/-- The structure returned by the external keysets parser
(`keysets.parse` of enb-bem-i18n): a version, core definitions and the
keysets mapping.  Their payloads are opaque to this repository, so they
are carried as strings. -/
structure ParsedKeysets where
  version : String
  core : String
  keysets : String
  deriving Repr, DecidableEq

/-- The options object built at lines 116-119 of both tech files and
passed to the external i18n compiler. -/
structure I18NOpts where
  version : String
  language : String
  deriving Repr, DecidableEq

/-- A recorded invocation of the external i18n compiler
(`compileI18N(parsed.core, parsed.keysets, opts)`, line 121). -/
structure I18NCall where
  core : String
  keysets : String
  opts : I18NOpts
  deriving Repr, DecidableEq

/-- A recorded invocation of the external template compiler
(`this._compileBEMXJST(sources)` at line 86 of the bemhtml tech,
`this._compileBEMXJST(sources, 'bemtree')` at line 86 of the bemtree
tech).  `mode` is `none` when the argument is omitted. -/
structure XJSTCall where
  sources : List SourceEntry
  mode : Option String
  deriving Repr, DecidableEq

/-- Trace of external calls made by one builder run: filenames handed to
the file reader, filenames handed to the keysets reader, i18n-compiler
invocations and template-compiler invocations, each in call order. -/
structure Trace where
  fileReads : List String
  keysetReads : List String
  i18nCalls : List I18NCall
  xjstCalls : List XJSTCall
  deriving Repr, DecidableEq

/-- The empty trace: no external call was made. -/
def Trace.empty : Trace := ⟨[], [], [], []⟩

/-- Abstract build environment: the external collaborators the techs
delegate to, plus the configured language.  All of them are black boxes
per section 6 of the spec; the builders only thread values through. -/
structure BuildEnv where
  fs : String → Except BuildError String
  readKeysets : String → Except BuildError String
  parseKeysets : String → Except BuildError ParsedKeysets
  compileI18NFn : String → String → I18NOpts → Except BuildError String
  processContents : String → String
  compileBEMXJSTFn : List SourceEntry → Option String → Except BuildError String
  mockBEMHTML : String
  mockBEMTREE : String
  lang : String

/-- Modelled from the spec: the base tech's `_getUniqueFilenames` helper
(called at line 98 of both tech files) lives in the external
`enb-bemxjst` package, not in this repository's sources.  Per the spec,
it deduplicates the file list by file path, keeping the first occurrence
of each path and dropping later duplicates, preserving order.  This is
the accumulator form: `seen` holds the paths already emitted. -/
def uniqueAux : List String → List String → List String
  | _, [] => []
  | seen, f :: rest =>
      if f ∈ seen then uniqueAux seen rest
      else f :: uniqueAux (f :: seen) rest

/-- Deduplication of a file list by path, first occurrence kept. -/
def uniqueFilenames (fileList : List String) : List String :=
  uniqueAux [] fileList

/-- Modelled from the spec: the base tech's `_readFiles` (line 100 of
both tech files) reads every listed file and yields one source entry per
file, in list order; any unreadable file fails the whole read. -/
def readFiles (env : BuildEnv) (filenames : List String) :
    Except BuildError (List SourceEntry) :=
  filenames.mapM fun f => (env.fs f).map fun c => SourceEntry.mk (some f) c

/-- Modelled from the spec: the base tech's `_processSources` (line 101
of both tech files) processes the read sources elementwise, leaving
count and order unchanged. -/
def processSources (env : BuildEnv) (sources : List SourceEntry) :
    List SourceEntry :=
  sources.map fun s => SourceEntry.mk s.path (env.processContents s.contents)

/-- `_getBEMHTMLSources` (lines 97-102 of src/techs/bemhtml-i18n.js):
deduplicate the file list, read the files, process the results. -/
def getBEMHTMLSources (env : BuildEnv) (fileList : List String) :
    Except BuildError (List SourceEntry) :=
  (readFiles env (uniqueFilenames fileList)).map (processSources env)

/-- `_getBEMTREESources` (lines 97-102 of src/unnamed/part_000):
deduplicate the file list, read the files, process the results. -/
def getBEMTREESources (env : BuildEnv) (fileList : List String) :
    Except BuildError (List SourceEntry) :=
  (readFiles env (uniqueFilenames fileList)).map (processSources env)

/-- `_compileI18N` (lines 112-123, identical in both tech files): read
the keysets file, parse it, and call the external i18n compiler with the
parsed `core`, the parsed `keysets` and `{version: parsed.version,
language: this._lang}`.  Besides the result it returns the list of i18n
compiler invocations actually made. -/
def compileI18NRun (env : BuildEnv) (keysetsFilename : String) :
    Except BuildError String × List I18NCall :=
  match env.readKeysets keysetsFilename with
  | .error e => (.error e, [])
  | .ok keysetsSource =>
      match env.parseKeysets keysetsSource with
      | .error e => (.error e, [])
      | .ok parsed =>
          (env.compileI18NFn parsed.core parsed.keysets
              (I18NOpts.mk parsed.version env.lang),
           [I18NCall.mk parsed.core parsed.keysets
              (I18NOpts.mk parsed.version env.lang)])

/-- The line separator used to join the synthetic entry's lines
(`require('os').EOL`, line 1 of both tech files). -/
def EOL : String := "\n"

/-- Contents of the synthetic initialization entry (lines 78-83 of both
tech files), with the compiled i18n code spliced in. -/
def initEntryContents (i18nCode : String) : String :=
  String.intercalate EOL
    [ "oninit(function(exports, context) \x7b",
      "    var BEMContext = exports.BEMContext || context.BEMContext;",
      "    BEMContext.prototype.i18n = " ++ i18nCode ++ ";",
      "\x7d);" ]

/-- Shallow semantics of line 80 of both tech files,
`var BEMContext = exports.BEMContext || context.BEMContext;`:
the base class is the one exported under `BEMContext` when present, the
context's one otherwise. -/
def resolveBEMContext (exportsBEMContext contextBEMContext : Option String) :
    Option String :=
  match exportsBEMContext with
  | some c => some c
  | none => contextBEMContext

/-- Shallow semantics of line 81 of both tech files,
`BEMContext.prototype.i18n = I18NCode;`, executed by the oninit hook of
the synthetic entry: a pointwise update of the prototype (a map from
member names to values) at the single member name "i18n". -/
def initHookEffect (i18nCode : String) (proto : String → Option String) :
    String → Option String :=
  fun member => if member = "i18n" then some i18nCode else proto member

/-- The builder of the `bemhtml-i18n` tech (lines 66-88 of
src/techs/bemhtml-i18n.js).  An empty file list returns the mock BEMHTML
bundle at once; otherwise both branches are evaluated, their results
joined, the synthetic initialization entry appended, and the template
compiler called without a mode argument. -/
def bemhtmlBuilder (env : BuildEnv) (fileList : List String)
    (keysetsFilename : String) : Except BuildError String × Trace :=
  if fileList.length = 0 then
    (.ok env.mockBEMHTML, Trace.empty)
  else
    match getBEMHTMLSources env fileList, compileI18NRun env keysetsFilename with
    | .error e, (_, calls) =>
        (.error e, Trace.mk (uniqueFilenames fileList) [keysetsFilename] calls [])
    | .ok _, (.error e, calls) =>
        (.error e, Trace.mk (uniqueFilenames fileList) [keysetsFilename] calls [])
    | .ok bemhtmlSources, (.ok i18nCode, calls) =>
        (env.compileBEMXJSTFn
           (bemhtmlSources ++ [SourceEntry.mk none (initEntryContents i18nCode)])
           none,
         Trace.mk (uniqueFilenames fileList) [keysetsFilename] calls
           [XJSTCall.mk
              (bemhtmlSources ++ [SourceEntry.mk none (initEntryContents i18nCode)])
              none])

/-- The builder of the `bemtree-i18n` tech (lines 66-88 of
src/unnamed/part_000).  Identical to the bemhtml one except that the
empty case returns the mock BEMTREE bundle and the template compiler is
called with the mode argument 'bemtree'. -/
def bemtreeBuilder (env : BuildEnv) (fileList : List String)
    (keysetsFilename : String) : Except BuildError String × Trace :=
  if fileList.length = 0 then
    (.ok env.mockBEMTREE, Trace.empty)
  else
    match getBEMTREESources env fileList, compileI18NRun env keysetsFilename with
    | .error e, (_, calls) =>
        (.error e, Trace.mk (uniqueFilenames fileList) [keysetsFilename] calls [])
    | .ok _, (.error e, calls) =>
        (.error e, Trace.mk (uniqueFilenames fileList) [keysetsFilename] calls [])
    | .ok bemtreeSources, (.ok i18nCode, calls) =>
        (env.compileBEMXJSTFn
           (bemtreeSources ++ [SourceEntry.mk none (initEntryContents i18nCode)])
           (some ("bemtree")),
         Trace.mk (uniqueFilenames fileList) [keysetsFilename] calls
           [XJSTCall.mk
              (bemtreeSources ++ [SourceEntry.mk none (initEntryContents i18nCode)])
              (some ("bemtree"))])

/-- Modelled from the spec: `defineRequiredOption('lang')` (line 64 of
both tech files) is honored by the external ENB build flow, which fails
a task whose required option is absent before its builder runs.  Running
the bemhtml tech with an optional language: absent language fails with a
missing-configuration error and an empty trace; otherwise the builder
runs with that language. -/
def runBemhtmlI18nTech (env : BuildEnv) (langOpt : Option String)
    (fileList : List String) (keysetsFilename : String) :
    Except BuildError String × Trace :=
  match langOpt with
  | none => (.error (BuildError.missingConfiguration ("lang")), Trace.empty)
  | some l => bemhtmlBuilder (BuildEnv.mk env.fs env.readKeysets env.parseKeysets
      env.compileI18NFn env.processContents env.compileBEMXJSTFn
      env.mockBEMHTML env.mockBEMTREE l) fileList keysetsFilename

/-- Modelled from the spec: the bemtree counterpart of
`runBemhtmlI18nTech`, from line 64 of src/unnamed/part_000. -/
def runBemtreeI18nTech (env : BuildEnv) (langOpt : Option String)
    (fileList : List String) (keysetsFilename : String) :
    Except BuildError String × Trace :=
  match langOpt with
  | none => (.error (BuildError.missingConfiguration ("lang")), Trace.empty)
  | some l => bemtreeBuilder (BuildEnv.mk env.fs env.readKeysets env.parseKeysets
      env.compileI18NFn env.processContents env.compileBEMXJSTFn
      env.mockBEMHTML env.mockBEMTREE l) fileList keysetsFilename

/-- Declaration-level data of a tech: its name, the default target, the
required options and the default keysets file (lines 61-65 of a tech
file). -/
structure TechDecl where
  name : String
  targetDefault : String
  requiredOptions : List String
  keysetsFileDefault : String
  deriving Repr, DecidableEq

/-- The declaration chain of src/techs/bemhtml-i18n.js, lines 61-65. -/
def bemhtmlI18nTechDecl : TechDecl :=
  TechDecl.mk ("bemhtml-i18n") ("?.bemhtml.{lang}.js") ["lang"] ("?.keysets.{lang}.js")

/-- The declaration chain of src/unnamed/part_000, lines 61-65. -/
def bemtreeI18nTechDecl : TechDecl :=
  TechDecl.mk ("bemtree-i18n") ("?.bemtree.{lang}.js") ["lang"] ("?.keysets.{lang}.js")

/-- A concrete environment for witnesses and counterexamples: every
collaborator succeeds with distinctive outputs. -/
def exEnv : BuildEnv :=
  BuildEnv.mk
    (fun p => .ok (("block(") ++ p ++ (")")))
    (fun _ => .ok ("keysets raw source"))
    (fun _ => .ok (ParsedKeysets.mk ("2") ("coredefs") ("keysetdata")))
    (fun core ks opts =>
      .ok (("i18nfn(") ++ core ++ (",") ++ ks ++ (",") ++
        opts.version ++ (",") ++ opts.language ++ (")")))
    (fun c => c)
    (fun srcs mode =>
      .ok (("bundle:") ++ toString srcs.length ++ (":") ++ mode.getD ("bemhtml")))
    ("mockBEMHTML") ("mockBEMTREE") ("en")

/-- A concrete environment whose file reads all fail, for exercising the
failure path of the template-sources branch. -/
def exEnvFail : BuildEnv :=
  BuildEnv.mk
    (fun p => .error (BuildError.fileRead p))
    exEnv.readKeysets exEnv.parseKeysets exEnv.compileI18NFn
    exEnv.processContents exEnv.compileBEMXJSTFn
    ("mockBEMHTML") ("mockBEMTREE") ("en")

/-- Every path in the deduplicated list occurs in the input and is not
among the already-seen paths. -/
theorem mem_uniqueAux (x : String) :
    ∀ (l seen : List String), x ∈ uniqueAux seen l → x ∉ seen ∧ x ∈ l := by
  intro l
  induction l with
  | nil => intro seen hx; simp [uniqueAux] at hx
  | cons a rest ih =>
    intro seen hx
    simp only [uniqueAux] at hx
    by_cases ha : a ∈ seen
    · rw [if_pos ha] at hx
      obtain ⟨h1, h2⟩ := ih seen hx
      exact ⟨h1, List.mem_cons_of_mem a h2⟩
    · rw [if_neg ha] at hx
      rcases List.mem_cons.mp hx with rfl | hx2
      · exact ⟨ha, List.mem_cons_self x rest⟩
      · obtain ⟨h1, h2⟩ := ih (a :: seen) hx2
        exact ⟨fun hs => h1 (List.mem_cons_of_mem a hs), List.mem_cons_of_mem a h2⟩

/-- The deduplicated list has no duplicate paths. -/
theorem uniqueAux_nodup : ∀ (l seen : List String), (uniqueAux seen l).Nodup := by
  intro l
  induction l with
  | nil => intro seen; simp [uniqueAux]
  | cons a rest ih =>
    intro seen
    simp only [uniqueAux]
    by_cases ha : a ∈ seen
    · rw [if_pos ha]; exact ih seen
    · rw [if_neg ha]
      refine List.nodup_cons.mpr ⟨?_, ih (a :: seen)⟩
      intro hmem
      exact (mem_uniqueAux a rest (a :: seen) hmem).1 (List.mem_cons_self a seen)

/-- The deduplicated list is a sublist of the input: relative order of
surviving entries is preserved. -/
theorem uniqueAux_sublist : ∀ (l seen : List String), (uniqueAux seen l).Sublist l := by
  intro l
  induction l with
  | nil => intro seen; simp [uniqueAux]
  | cons a rest ih =>
    intro seen
    simp only [uniqueAux]
    by_cases ha : a ∈ seen
    · rw [if_pos ha]
      exact (ih seen).cons a
    · rw [if_neg ha]
      exact (ih (a :: seen)).cons₂ a

/-- Dropping an occurrence of a path that already occurred earlier (or
is already seen) does not change the deduplicated list. -/
theorem uniqueAux_middle (p : String) :
    ∀ (l seen r : List String), p ∈ seen ∨ p ∈ l →
      uniqueAux seen (l ++ p :: r) = uniqueAux seen (l ++ r) := by
  intro l
  induction l with
  | nil =>
    intro seen r h
    rcases h with h | h
    · simp only [List.nil_append, uniqueAux, if_pos h]
    · exact absurd h (List.not_mem_nil p)
  | cons a rest ih =>
    intro seen r h
    simp only [List.cons_append, uniqueAux]
    by_cases ha : a ∈ seen
    · rw [if_pos ha, if_pos ha]
      apply ih
      rcases h with h | h
      · exact Or.inl h
      · rcases List.mem_cons.mp h with rfl | h2
        · exact Or.inl ha
        · exact Or.inr h2
    · rw [if_neg ha, if_neg ha]
      congr 1
      apply ih
      rcases h with h | h
      · exact Or.inl (List.mem_cons_of_mem a h)
      · rcases List.mem_cons.mp h with rfl | h2
        · exact Or.inl (List.mem_cons_self p seen)
        · exact Or.inr h2

/-- Every input path not already seen survives deduplication. -/
theorem mem_uniqueAux_of_mem (x : String) :
    ∀ (l seen : List String), x ∈ l → x ∉ seen → x ∈ uniqueAux seen l := by
  intro l
  induction l with
  | nil => intro seen h _; exact absurd h (List.not_mem_nil x)
  | cons a rest ih =>
    intro seen hx hseen
    simp only [uniqueAux]
    by_cases ha : a ∈ seen
    · rw [if_pos ha]
      rcases List.mem_cons.mp hx with rfl | hx2
      · exact absurd ha hseen
      · exact ih seen hx2 hseen
    · rw [if_neg ha]
      by_cases hxa : x = a
      · subst hxa; exact List.mem_cons_self x _
      · rcases List.mem_cons.mp hx with rfl | hx2
        · exact absurd rfl hxa
        · refine List.mem_cons_of_mem a (ih (a :: seen) hx2 ?_)
          intro hmem
          rcases List.mem_cons.mp hmem with h1 | h2
          · exact hxa h1
          · exact hseen h2

/-- C1: for either tech, a build with an empty file list returns the
mock/placeholder bundle as a terminal success with an empty trace, and
the result is unchanged under any replacement of the file system, the
keysets reader and the keysets parser, so the output does not depend on
the keyset file's contents. -/
theorem empty_fileList_returns_mock (env : BuildEnv) (kf : String) :
    bemhtmlBuilder env [] kf = (.ok env.mockBEMHTML, Trace.empty) ∧
    bemtreeBuilder env [] kf = (.ok env.mockBEMTREE, Trace.empty) ∧
    (∀ f rk pk kf2,
      bemhtmlBuilder
        (BuildEnv.mk f rk pk env.compileI18NFn env.processContents
          env.compileBEMXJSTFn env.mockBEMHTML env.mockBEMTREE env.lang) [] kf2 =
        bemhtmlBuilder env [] kf) ∧
    (∀ f rk pk kf2,
      bemtreeBuilder
        (BuildEnv.mk f rk pk env.compileI18NFn env.processContents
          env.compileBEMXJSTFn env.mockBEMHTML env.mockBEMTREE env.lang) [] kf2 =
        bemtreeBuilder env [] kf) :=
  ⟨rfl, rfl, fun _ _ _ _ => rfl, fun _ _ _ _ => rfl⟩

/-- C3: deduplication of the file list keeps only the first occurrence
of a repeated path: the deduplicated list is the same with or without
the later duplicate, is duplicate-free, is an order-preserving sublist
of the input, still contains the repeated path, and the source
sequences built from the two file lists coincide for every environment. -/
theorem dedup_keeps_first_occurrence (l1 l2 l3 : List String) (p : String)
    (env : BuildEnv) :
    uniqueFilenames (l1 ++ (p :: (l2 ++ (p :: l3)))) =
      uniqueFilenames (l1 ++ (p :: (l2 ++ l3))) ∧
    (uniqueFilenames (l1 ++ (p :: (l2 ++ (p :: l3))))).Sublist
      (l1 ++ (p :: (l2 ++ (p :: l3)))) ∧
    (uniqueFilenames (l1 ++ (p :: (l2 ++ (p :: l3))))).Nodup ∧
    p ∈ uniqueFilenames (l1 ++ (p :: (l2 ++ (p :: l3)))) ∧
    getBEMHTMLSources env (l1 ++ (p :: (l2 ++ (p :: l3)))) =
      getBEMHTMLSources env (l1 ++ (p :: (l2 ++ l3))) ∧
    getBEMTREESources env (l1 ++ (p :: (l2 ++ (p :: l3)))) =
      getBEMTREESources env (l1 ++ (p :: (l2 ++ l3))) := by
  have hmem : p ∈ l1 ++ (p :: l2) :=
    List.mem_append.mpr (Or.inr (List.mem_cons_self p l2))
  have hre1 : l1 ++ (p :: (l2 ++ (p :: l3))) = (l1 ++ (p :: l2)) ++ (p :: l3) := by
    simp
  have hre2 : l1 ++ (p :: (l2 ++ l3)) = (l1 ++ (p :: l2)) ++ l3 := by
    simp
  have h1 : uniqueFilenames (l1 ++ (p :: (l2 ++ (p :: l3)))) =
      uniqueFilenames (l1 ++ (p :: (l2 ++ l3))) := by
    rw [hre1, hre2]
    exact uniqueAux_middle p (l1 ++ (p :: l2)) [] l3 (Or.inr hmem)
  refine ⟨h1, uniqueAux_sublist _ [], uniqueAux_nodup _ [], ?_, ?_, ?_⟩
  · refine mem_uniqueAux_of_mem p _ [] ?_ (List.not_mem_nil p)
    exact List.mem_append.mpr (Or.inr (List.mem_cons_self p _))
  · simp only [getBEMHTMLSources, h1]
  · simp only [getBEMTREESources, h1]

/-- C4: when the keysets file reads and parses successfully, the i18n
compiler is invoked exactly once, with the parsed core, the parsed
keysets field and the options made of the parsed version and the
configured language — never the raw file contents. -/
theorem i18n_called_once_with_parsed_fields (env : BuildEnv)
    (kf keysetsSource : String) (parsed : ParsedKeysets)
    (hr : env.readKeysets kf = .ok keysetsSource)
    (hp : env.parseKeysets keysetsSource = .ok parsed) :
    (compileI18NRun env kf).2 =
      [I18NCall.mk parsed.core parsed.keysets
        (I18NOpts.mk parsed.version env.lang)] ∧
    (compileI18NRun env kf).1 =
      env.compileI18NFn parsed.core parsed.keysets
        (I18NOpts.mk parsed.version env.lang) := by
  constructor <;> simp [compileI18NRun, hr, hp]

/-- C4 witness: in the concrete environment the keysets file reads and
parses successfully and the i18n compiler is called exactly once with
the parsed fields. -/
theorem i18n_called_once_with_parsed_fields_witness :
    exEnv.readKeysets ("b.keysets.en.js") = .ok ("keysets raw source") ∧
    exEnv.parseKeysets ("keysets raw source") =
      .ok (ParsedKeysets.mk ("2") ("coredefs") ("keysetdata")) ∧
    ((compileI18NRun exEnv ("b.keysets.en.js")).2 =
      [I18NCall.mk ("coredefs") ("keysetdata") (I18NOpts.mk ("2") ("en"))] ∧
     (compileI18NRun exEnv ("b.keysets.en.js")).1 =
      exEnv.compileI18NFn ("coredefs") ("keysetdata") (I18NOpts.mk ("2") ("en"))) :=
  ⟨rfl, rfl,
    i18n_called_once_with_parsed_fields exEnv ("b.keysets.en.js")
      ("keysets raw source") (ParsedKeysets.mk ("2") ("coredefs") ("keysetdata"))
      rfl rfl⟩

/-- C5 counterexample: at a concrete environment holding a readable
keysets file, a build with an empty file list performs no keysets read
and no i18n compilation at all, refuting the claim that the keyset
branch still executes in the empty case. -/
theorem empty_fileList_reads_keyset_cex :
    ¬ ((bemhtmlBuilder exEnv [] ("bundle.keysets.en.js")).2.keysetReads ≠ [] ∨
       (bemhtmlBuilder exEnv [] ("bundle.keysets.en.js")).2.i18nCalls ≠ []) := by
  intro h
  rcases h with h | h <;> exact h rfl

/-- C5 amended: when the file list is empty the keyset branch does not
execute: for either tech the builder returns with a completely empty
trace — in particular the keysets file is never read and the i18n
compiler never invoked. -/
theorem empty_fileList_skips_keyset_branch (env : BuildEnv) (kf : String) :
    (bemhtmlBuilder env [] kf).2 = Trace.empty ∧
    (bemtreeBuilder env [] kf).2 = Trace.empty :=
  ⟨rfl, rfl⟩

/-- C6: running either tech with the required language option absent
fails with a missing-configuration error for the option lang, with an
empty trace: no file is read and no bundle is produced. -/
theorem missing_lang_fails_before_any_read (env : BuildEnv)
    (fl : List String) (kf : String) :
    runBemhtmlI18nTech env none fl kf =
      (.error (BuildError.missingConfiguration ("lang")), Trace.empty) ∧
    runBemtreeI18nTech env none fl kf =
      (.error (BuildError.missingConfiguration ("lang")), Trace.empty) ∧
    (runBemhtmlI18nTech env none fl kf).2.fileReads = [] ∧
    (runBemhtmlI18nTech env none fl kf).2.keysetReads = [] :=
  ⟨rfl, rfl, rfl, rfl⟩

/-- C8: the oninit hook of the synthetic initialization entry updates
the shared base class prototype at exactly the member i18n, setting it
to the compiled localization output; every other member is unchanged. -/
theorem init_hook_only_sets_i18n (i18nCode : String)
    (proto : String → Option String) (m : String) (hm : m ≠ "i18n") :
    initHookEffect i18nCode proto ("i18n") = some i18nCode ∧
    initHookEffect i18nCode proto m = proto m := by
  constructor
  · simp [initHookEffect]
  · simp [initHookEffect, hm]

/-- C8 witness: on a concrete prototype and concrete member name other
than i18n, the hook sets i18n and leaves the other member unchanged. -/
theorem init_hook_only_sets_i18n_witness :
    ("html" : String) ≠ "i18n" ∧
    (initHookEffect ("CODE") (fun _ => none) ("i18n") = some ("CODE") ∧
     initHookEffect ("CODE") (fun _ => none) ("html") = none) :=
  ⟨by decide, init_hook_only_sets_i18n ("CODE") (fun _ => none) ("html") (by decide)⟩

/-- C9: both tech declarations default the output target to a
language-templated pattern and the keysets source file to the
language-templated keysets pattern. -/
theorem tech_decl_language_templated_defaults :
    bemhtmlI18nTechDecl.targetDefault = "?.bemhtml.{lang}.js" ∧
    bemtreeI18nTechDecl.targetDefault = "?.bemtree.{lang}.js" ∧
    bemhtmlI18nTechDecl.keysetsFileDefault = "?.keysets.{lang}.js" ∧
    bemtreeI18nTechDecl.keysetsFileDefault = "?.keysets.{lang}.js" ∧
    bemhtmlI18nTechDecl.name = "bemhtml-i18n" ∧
    bemtreeI18nTechDecl.name = "bemtree-i18n" :=
  ⟨rfl, rfl, rfl, rfl, rfl, rfl⟩

/-- C2: for a non-empty file list with both branches succeeding, the
template compiler is invoked with exactly the processed deduplicated
template sources in order followed by exactly one synthetic
initialization entry, which is last; nothing else is passed, and the
builder's result is that single compiler call's result (the bemtree tech
behaves the same with its mode argument). -/
theorem compiler_receives_sources_then_init (env : BuildEnv) (fl : List String)
    (kf : String) (s : List SourceEntry) (code : String)
    (hne : fl.length ≠ 0) (hs : getBEMHTMLSources env fl = .ok s)
    (hc : (compileI18NRun env kf).1 = .ok code) :
    (bemhtmlBuilder env fl kf).2.xjstCalls =
      [XJSTCall.mk (s ++ [SourceEntry.mk none (initEntryContents code)]) none] ∧
    (bemhtmlBuilder env fl kf).1 =
      env.compileBEMXJSTFn (s ++ [SourceEntry.mk none (initEntryContents code)])
        none ∧
    (bemtreeBuilder env fl kf).2.xjstCalls =
      [XJSTCall.mk (s ++ [SourceEntry.mk none (initEntryContents code)])
        (some ("bemtree"))] ∧
    (bemtreeBuilder env fl kf).1 =
      env.compileBEMXJSTFn (s ++ [SourceEntry.mk none (initEntryContents code)])
        (some ("bemtree")) := by
  have hs2 : getBEMTREESources env fl = .ok s := hs
  rcases hp : compileI18NRun env kf with ⟨r, calls⟩
  rw [hp] at hc
  have hr : r = .ok code := hc
  subst hr
  refine ⟨?_, ?_, ?_, ?_⟩ <;> simp [bemhtmlBuilder, bemtreeBuilder, hne, hs, hs2, hp]

/-- C2 witness: with the concrete environment and a one-file list, the
template compiler receives that file's processed source followed by the
synthetic initialization entry. -/
theorem compiler_receives_sources_then_init_witness :
    (["a.bemhtml"] : List String).length ≠ 0 ∧
    (bemhtmlBuilder exEnv ["a.bemhtml"] ("b.keysets.en.js")).2.xjstCalls =
      [XJSTCall.mk
        ([SourceEntry.mk (some ("a.bemhtml")) ("block(a.bemhtml)")] ++
          [SourceEntry.mk none
            (initEntryContents ("i18nfn(coredefs,keysetdata,2,en)"))])
        none] :=
  ⟨by decide,
   (compiler_receives_sources_then_init exEnv ["a.bemhtml"] ("b.keysets.en.js")
      [SourceEntry.mk (some ("a.bemhtml")) ("block(a.bemhtml)")]
      ("i18nfn(coredefs,keysetdata,2,en)") (by decide) rfl rfl).1⟩

/-- C7: for a non-empty file list, a failure of either branch (reading
and processing the template sources, or reading, parsing and compiling
the keysets) makes the whole build fail with that branch's error, and
the template compiler is never invoked, so no partial bundle is
produced; likewise for the bemtree tech. -/
theorem branch_failure_aborts_build (env : BuildEnv) (fl : List String)
    (kf : String) (hne : fl.length ≠ 0) :
    (∀ e, getBEMHTMLSources env fl = .error e →
        (bemhtmlBuilder env fl kf).1 = .error e ∧
        (bemhtmlBuilder env fl kf).2.xjstCalls = []) ∧
    (∀ e s, getBEMHTMLSources env fl = .ok s →
        (compileI18NRun env kf).1 = .error e →
        (bemhtmlBuilder env fl kf).1 = .error e ∧
        (bemhtmlBuilder env fl kf).2.xjstCalls = []) ∧
    (∀ e, getBEMTREESources env fl = .error e →
        (bemtreeBuilder env fl kf).1 = .error e ∧
        (bemtreeBuilder env fl kf).2.xjstCalls = []) ∧
    (∀ e s, getBEMTREESources env fl = .ok s →
        (compileI18NRun env kf).1 = .error e →
        (bemtreeBuilder env fl kf).1 = .error e ∧
        (bemtreeBuilder env fl kf).2.xjstCalls = []) := by
  refine ⟨?_, ?_, ?_, ?_⟩
  · intro e he
    rcases hp : compileI18NRun env kf with ⟨r, calls⟩
    constructor <;> simp [bemhtmlBuilder, hne, he, hp]
  · intro e s hs hc
    rcases hp : compileI18NRun env kf with ⟨r, calls⟩
    rw [hp] at hc
    have hr : r = .error e := hc
    subst hr
    constructor <;> simp [bemhtmlBuilder, hne, hs, hp]
  · intro e he
    rcases hp : compileI18NRun env kf with ⟨r, calls⟩
    constructor <;> simp [bemtreeBuilder, hne, he, hp]
  · intro e s hs hc
    rcases hp : compileI18NRun env kf with ⟨r, calls⟩
    rw [hp] at hc
    have hr : r = .error e := hc
    subst hr
    constructor <;> simp [bemtreeBuilder, hne, hs, hp]

/-- C7 witness: in the environment whose file reads fail, the build of a
one-file list fails with that file's read error and the template
compiler is never invoked. -/
theorem branch_failure_aborts_build_witness :
    (["a.bemhtml"] : List String).length ≠ 0 ∧
    getBEMHTMLSources exEnvFail ["a.bemhtml"] =
      .error (BuildError.fileRead ("a.bemhtml")) ∧
    ((bemhtmlBuilder exEnvFail ["a.bemhtml"] ("b.keysets.en.js")).1 =
        .error (BuildError.fileRead ("a.bemhtml")) ∧
     (bemhtmlBuilder exEnvFail ["a.bemhtml"] ("b.keysets.en.js")).2.xjstCalls = []) :=
  ⟨by decide, rfl,
   (branch_failure_aborts_build exEnvFail ["a.bemhtml"] ("b.keysets.en.js")
      (by decide)).1 (BuildError.fileRead ("a.bemhtml")) rfl⟩

/-- C10: the two techs implement extensionally identical builder logic:
their source-reading helpers agree, their traces agree on file reads,
keyset reads and i18n calls, every template-compiler call receives the
same source sequence (including the identical synthetic initialization
entry), and the results agree case by case; the only differences are
which mock is returned for an empty file list and the mode argument
passed to the template compiler (absent for bemhtml, bemtree for
bemtree). -/
theorem techs_extensionally_identical (env : BuildEnv) (fl : List String)
    (kf : String) :
    getBEMTREESources env fl = getBEMHTMLSources env fl ∧
    (bemhtmlBuilder env fl kf).2.fileReads = (bemtreeBuilder env fl kf).2.fileReads ∧
    (bemhtmlBuilder env fl kf).2.keysetReads =
      (bemtreeBuilder env fl kf).2.keysetReads ∧
    (bemhtmlBuilder env fl kf).2.i18nCalls = (bemtreeBuilder env fl kf).2.i18nCalls ∧
    (bemhtmlBuilder env fl kf).2.xjstCalls.map XJSTCall.sources =
      (bemtreeBuilder env fl kf).2.xjstCalls.map XJSTCall.sources ∧
    (∀ c ∈ (bemhtmlBuilder env fl kf).2.xjstCalls, c.mode = none) ∧
    (∀ c ∈ (bemtreeBuilder env fl kf).2.xjstCalls, c.mode = some ("bemtree")) ∧
    (fl.length = 0 →
      (bemhtmlBuilder env fl kf).1 = .ok env.mockBEMHTML ∧
      (bemtreeBuilder env fl kf).1 = .ok env.mockBEMTREE) ∧
    (∀ e, fl.length ≠ 0 → getBEMHTMLSources env fl = .error e →
      (bemhtmlBuilder env fl kf).1 = .error e ∧
      (bemtreeBuilder env fl kf).1 = .error e) ∧
    (∀ e s, fl.length ≠ 0 → getBEMHTMLSources env fl = .ok s →
      (compileI18NRun env kf).1 = .error e →
      (bemhtmlBuilder env fl kf).1 = .error e ∧
      (bemtreeBuilder env fl kf).1 = .error e) ∧
    (∀ s code, fl.length ≠ 0 → getBEMHTMLSources env fl = .ok s →
      (compileI18NRun env kf).1 = .ok code →
      (bemhtmlBuilder env fl kf).1 =
        env.compileBEMXJSTFn
          (s ++ [SourceEntry.mk none (initEntryContents code)]) none ∧
      (bemtreeBuilder env fl kf).1 =
        env.compileBEMXJSTFn
          (s ++ [SourceEntry.mk none (initEntryContents code)])
          (some ("bemtree"))) := by
  by_cases h0 : fl.length = 0
  · refine ⟨rfl, ?_, ?_, ?_, ?_, ?_, ?_, ?_, ?_, ?_, ?_⟩ <;>
      simp [bemhtmlBuilder, bemtreeBuilder, h0, Trace.empty]
  · rcases hp : compileI18NRun env kf with ⟨r, calls⟩
    rcases hs : getBEMHTMLSources env fl with e | s
    · have hs2 : getBEMTREESources env fl = .error e := hs
      refine ⟨hs2, ?_, ?_, ?_, ?_, ?_, ?_, ?_, ?_, ?_, ?_⟩
      · simp [bemhtmlBuilder, bemtreeBuilder, h0, hs, hs2, hp]
      · simp [bemhtmlBuilder, bemtreeBuilder, h0, hs, hs2, hp]
      · simp [bemhtmlBuilder, bemtreeBuilder, h0, hs, hs2, hp]
      · simp [bemhtmlBuilder, bemtreeBuilder, h0, hs, hs2, hp]
      · simp [bemhtmlBuilder, bemtreeBuilder, h0, hs, hs2, hp]
      · simp [bemhtmlBuilder, bemtreeBuilder, h0, hs, hs2, hp]
      · intro h
        exact absurd h h0
      · intro e2 _ he
        injection he with hee
        subst hee
        constructor <;> simp [bemhtmlBuilder, bemtreeBuilder, h0, hs, hs2, hp]
      · intro e2 s2 _ hsok _
        exact absurd hsok (by simp)
      · intro s2 code2 _ hsok _
        exact absurd hsok (by simp)
    · have hs2 : getBEMTREESources env fl = .ok s := hs
      rcases r with e2 | code
      · refine ⟨hs2, ?_, ?_, ?_, ?_, ?_, ?_, ?_, ?_, ?_, ?_⟩
        · simp [bemhtmlBuilder, bemtreeBuilder, h0, hs, hs2, hp]
        · simp [bemhtmlBuilder, bemtreeBuilder, h0, hs, hs2, hp]
        · simp [bemhtmlBuilder, bemtreeBuilder, h0, hs, hs2, hp]
        · simp [bemhtmlBuilder, bemtreeBuilder, h0, hs, hs2, hp]
        · simp [bemhtmlBuilder, bemtreeBuilder, h0, hs, hs2, hp]
        · simp [bemhtmlBuilder, bemtreeBuilder, h0, hs, hs2, hp]
        · intro h
          exact absurd h h0
        · intro e3 _ he
          exact absurd he (by simp)
        · intro e3 s3 _ hsok hce
          have hce2 : (Except.error e2 : Except BuildError String) =
              Except.error e3 := hce
          injection hce2 with hee
          subst hee
          constructor <;> simp [bemhtmlBuilder, bemtreeBuilder, h0, hs, hs2, hp]
        · intro s3 code3 _ hsok hco
          have hco2 : (Except.error e2 : Except BuildError String) =
              Except.ok code3 := hco
          exact absurd hco2 (by simp)
      · refine ⟨hs2, ?_, ?_, ?_, ?_, ?_, ?_, ?_, ?_, ?_, ?_⟩
        · simp [bemhtmlBuilder, bemtreeBuilder, h0, hs, hs2, hp]
        · simp [bemhtmlBuilder, bemtreeBuilder, h0, hs, hs2, hp]
        · simp [bemhtmlBuilder, bemtreeBuilder, h0, hs, hs2, hp]
        · simp [bemhtmlBuilder, bemtreeBuilder, h0, hs, hs2, hp]
        · simp [bemhtmlBuilder, bemtreeBuilder, h0, hs, hs2, hp]
        · simp [bemhtmlBuilder, bemtreeBuilder, h0, hs, hs2, hp]
        · intro h
          exact absurd h h0
        · intro e3 _ he
          exact absurd he (by simp)
        · intro e3 s3 _ hsok hce
          have hce2 : (Except.ok code : Except BuildError String) =
              Except.error e3 := hce
          exact absurd hce2 (by simp)
        · intro s3 code3 _ hsok hco
          injection hsok with hss
          subst hss
          have hco2 : (Except.ok code : Except BuildError String) =
              Except.ok code3 := hco
          injection hco2 with hcc
          subst hcc
          constructor <;> simp [bemhtmlBuilder, bemtreeBuilder, h0, hs, hs2, hp]

/-- C10 witness: at a concrete environment with an empty file list, the
two techs return their respective mocks. -/
theorem techs_extensionally_identical_witness :
    (([] : List String).length = 0) ∧
    ((bemhtmlBuilder exEnv [] ("k.keysets.en.js")).1 = .ok exEnv.mockBEMHTML ∧
     (bemtreeBuilder exEnv [] ("k.keysets.en.js")).1 = .ok exEnv.mockBEMTREE) :=
  ⟨rfl,
   (techs_extensionally_identical exEnv [] ("k.keysets.en.js")).2.2.2.2.2.2.2.1 rfl⟩
